import Mathlib

/-!
Shallow embedding of the core of the TickTick MCP server (src/index.js and
the unnamed Genspark variant): the TTL-based local cache store
(loadCache / saveCache / isTaskStale / addTaskToCache), the cached-task
query (getCachedTasks), the CSV bulk import (importFromCsv) and the
tool-call dispatcher (the CallToolRequestSchema handler switch).

JavaScript semantics relevant to the embedding:
  - Date.now() and timestamps are modelled as Int (milliseconds since epoch).
  - A cached_at field value is modelled by JsDateVal, classifying a JS value
    by the two tests the code applies to it: truthiness (the gate
    if (!task.cached_at) return true) and parseability by new Date(_).
    For an unparsable non-empty string, new Date(_) is Invalid Date, the
    subtraction Date.now() - new Date(_) is NaN, and NaN > CACHE_TTL is
    false in JS.
  - A JS object used as a string-keyed dictionary is modelled as an
    association list with JS assignment semantics (setKey): assigning to an
    existing key replaces the value in place and keeps insertion order,
    assigning a new key appends.
-/

namespace TickTickMCP

/-- CACHE_TTL from src/index.js line 37: 24 hours in milliseconds. -/
def CACHE_TTL : Int := 24 * 60 * 60 * 1000

/-- Model of the JS value found in the cached_at field of a cache record.
  absent covers a missing field and other falsy non-string values
  (undefined, null); emptyStr is the empty string (falsy, and unparsable by
  new Date); badStr is a non-empty (truthy) string that new Date cannot
  parse (Invalid Date, arithmetic yields NaN); time t is a value parsing to
  epoch-milliseconds t. -/
inductive JsDateVal where
  | absent
  | emptyStr
  | badStr
  | time (t : Int)
deriving DecidableEq, Repr

/-- Embeds isTaskStale (src/index.js lines 88-91):
  if (!task.cached_at) return true;
  return Date.now() - new Date(task.cached_at) > CACHE_TTL;
  The first line fires exactly on the falsy values (absent, emptyStr).
  For badStr the subtraction is NaN and NaN > CACHE_TTL is false. -/
def isTaskStale (now : Int) (cached_at : JsDateVal) : Bool :=
  match cached_at with
  | .absent => true
  | .emptyStr => true
  | .badStr => false
  | .time t => decide (now - t > CACHE_TTL)

/-- A cache record as written by addTaskToCache (src/index.js lines 96-100):
  the value stored under a task id. -/
structure CacheRecord where
  project_id : String
  title : String
  cached_at : JsDateVal
deriving DecidableEq, Repr

/-- The persisted cache document: the tasks dictionary plus any unknown
  top-level sibling keys (extra), which JSON.parse and JSON.stringify carry
  through untouched; sibling values are modelled opaquely as strings. -/
structure CacheDoc where
  tasks : List (String × CacheRecord)
  extra : List (String × String)
deriving DecidableEq, Repr

/-- The empty table written and returned by the cache store. -/
def emptyDoc : CacheDoc := ⟨[], []⟩

/-- JS object assignment obj[k] = v on an association list: replace the
  first binding of k in place, or append a new binding. -/
def setKey (k : String) (v : CacheRecord) :
    List (String × CacheRecord) → List (String × CacheRecord)
  | [] => [(k, v)]
  | (k', v') :: rest => if k' = k then (k, v) :: rest else (k', v') :: setKey k v rest

/-- State of the persisted cache file: absent, present with unparsable
  content, or holding a parsed document. Parsable contents are modelled as
  table-shaped documents, the shape every write of this program produces. -/
inductive FileState where
  | absent
  | unparsable
  | stored (doc : CacheDoc)
deriving DecidableEq, Repr

/-- Embeds loadCache (src/index.js lines 68-78): if the file exists its
  content is parsed and returned; a missing file falls through and a parse
  error is caught; both paths return the empty table. Every path returns -
  the function never throws. -/
def loadCache : FileState → CacheDoc
  | .stored doc => doc
  | .absent => emptyDoc
  | .unparsable => emptyDoc

/-- Embeds saveCache (src/index.js lines 80-86): serializes the full
  document and overwrites the file (successful-write path). -/
def saveCache (doc : CacheDoc) : FileState := .stored doc

/-- Embeds the document-level effect of addTaskToCache (src/index.js lines
  93-105): cache.tasks[taskId] = with project_id, title and
  cached_at = new Date().toISOString(), evaluated at current time now.
  The load and save around it are composed separately via loadCache and
  saveCache. -/
def addTaskToCache (now : Int) (taskId projectId title : String)
    (doc : CacheDoc) : CacheDoc :=
  { doc with tasks := setKey taskId ⟨projectId, title, .time now⟩ doc.tasks }

/-- Enriched view of one cached task as built by getCachedTasks
  (src/index.js lines 654-658): the record spread together with its id and
  an is_stale flag. -/
structure CachedTaskView where
  id : String
  project_id : String
  title : String
  cached_at : JsDateVal
  is_stale : Bool
deriving DecidableEq, Repr

/-- Arguments of ticktick_get_cached_tasks as they reach the handler. none
  models an absent (undefined) field - the dispatcher passes the raw
  arguments object through without filling schema defaults. -/
structure GetCachedTasksArgs where
  project_id : Option String
  include_stale : Option Bool
deriving DecidableEq, Repr

/-- Truthiness of an optional JS boolean: undefined is falsy. -/
def truthyBool : Option Bool → Bool
  | some b => b
  | none => false

/-- Embeds getCachedTasks (src/index.js lines 651-679), the pure part that
  computes the filtered task list from the loaded document:
  - map every entry to an enriched view with is_stale;
  - if (args.project_id) filter by equality on project_id (skipped for an
    absent or empty - falsy - value);
  - if (!args.include_stale) filter out stale entries. An absent
    include_stale is falsy, so the stale filter runs. -/
def getCachedTasks (now : Int) (args : GetCachedTasksArgs)
    (doc : CacheDoc) : List CachedTaskView :=
  let ts := doc.tasks.map (fun p =>
    ⟨p.1, p.2.project_id, p.2.title, p.2.cached_at, isTaskStale now p.2.cached_at⟩)
  let ts := match args.project_id with
    | some pid => if pid = "" then ts else ts.filter (fun t => t.project_id = pid)
    | none => ts
  if truthyBool args.include_stale then ts else ts.filter (fun t => !t.is_stale)

/-- The default declared for include_stale in the inputSchema of
  ticktick_get_cached_tasks (src/index.js line 237). -/
def includeStaleDeclaredDefault : Bool := true

/-- Whitespace characters removed by the JS trim used here (the ASCII ones
  relevant to CSV text; exotic unicode spaces are not modelled). -/
def jsWhitespace (c : Char) : Bool :=
  c = ' ' || c = '\t' || c = '\n' || c = '\r'

/-- Character-level trim: drop whitespace from both ends. -/
def trimChars (l : List Char) : List Char :=
  ((l.dropWhile jsWhitespace).reverse.dropWhile jsWhitespace).reverse

/-- JS String.prototype.trim, on the character-list view of the string. -/
def jsTrim (s : String) : String := .mk (trimChars s.data)

/-- Splitting a character list at every occurrence of a separator
  character, accumulating the current piece in reverse. -/
def splitCharsAux (sep : Char) : List Char → List Char → List (List Char)
  | [], acc => [acc.reverse]
  | c :: cs, acc =>
      if c = sep then acc.reverse :: splitCharsAux sep cs []
      else splitCharsAux sep cs (c :: acc)

/-- JS String.prototype.split with a one-character separator, as used with
  a newline and with a comma in importFromCsv. -/
def jsSplit (sep : Char) (s : String) : List String :=
  (splitCharsAux sep s.data []).map String.mk

/-- Tests whether the second list is a prefix of the first. -/
def startsWithChars : List Char → List Char → Bool
  | _, [] => true
  | [], _ :: _ => false
  | a :: as, b :: bs => a = b && startsWithChars as bs

/-- Tests whether the second list occurs as a contiguous run in the first. -/
def containsChars : List Char → List Char → Bool
  | [], needle => needle.isEmpty
  | l@(_ :: rest), needle => startsWithChars l needle || containsChars rest needle

/-- JS String.prototype.includes: substring containment. -/
def jsIncludes (h sub : String) : Bool := containsChars h.data sub.data

/-- Embeds the header check of importFromCsv (src/index.js line 701):
  header.includes for each of the three column names. -/
def headerValid (h : String) : Bool :=
  jsIncludes h "task_id" && jsIncludes h "project_id" && jsIncludes h "title"

/-- Embeds csv_data.split of newline followed by filter on trimmed
  truthiness (src/index.js line 698): keeps the lines whose trimmed form is
  non-empty. -/
def splitLines (s : String) : List String :=
  (jsSplit '\n' s).filter (fun l => jsTrim l != "")

/-- Embeds the row destructuring of importFromCsv (src/index.js lines
  707-708): const with task_id, project_id, title bound to the first three
  comma-separated pieces after trim - positional, never header-directed -
  followed by the truthiness test on all three. A missing piece is
  undefined (falsy) and a trimmed empty piece is falsy, so both yield none
  (the row is skipped). -/
def rowFields (line : String) : Option (String × String × String) :=
  let fs := (jsSplit ',' line).map jsTrim
  match fs.get? 0, fs.get? 1, fs.get? 2 with
  | some a, some b, some c =>
      if a != "" && b != "" && c != "" then some (a, b, c) else none
  | _, _, _ => none

/-- Decidable equality for Except, so concrete import results can be
  checked by evaluation. -/
instance {ε α : Type} [DecidableEq ε] [DecidableEq α] : DecidableEq (Except ε α) := fun x y =>
  match x, y with
  | .ok a, .ok b =>
      match decEq a b with
      | isTrue h => isTrue (by rw [h])
      | isFalse h => isFalse (fun hc => h (Except.ok.inj hc))
  | .error a, .error b =>
      match decEq a b with
      | isTrue h => isTrue (by rw [h])
      | isFalse h => isFalse (fun hc => h (Except.error.inj hc))
  | .ok _, .error _ => isFalse (fun hc => Except.noConfusion hc)
  | .error _, .ok _ => isFalse (fun hc => Except.noConfusion hc)

/-- One iteration of the import loop (src/index.js lines 706-712): a
  well-formed row is registered through addTaskToCache and counted, a
  malformed row leaves the accumulator unchanged and the loop continues. -/
def importStep (now : Int) (acc : Nat × CacheDoc) (line : String) : Nat × CacheDoc :=
  match rowFields line with
  | some (a, b, c) => (acc.1 + 1, addTaskToCache now a b c acc.2)
  | none => acc

/-- Embeds importFromCsv after line splitting (src/index.js lines 696-723)
  on the list of non-blank lines: the first line is the header; a missing
  header (empty input) raises a TypeError on undefined, an invalid header
  raises the explicit Error, both caught and rethrown by the handler -
  modelled as Except.error; otherwise the loop folds importStep over the
  remaining lines starting from (0, current document) and the result is the
  count of imported rows with the final document. -/
def importLines (now : Int) (doc : CacheDoc) : List String → Except String (Nat × CacheDoc)
  | [] => .error "Cannot read properties of undefined"
  | header :: rows =>
      if headerValid header then .ok (rows.foldl (importStep now) (0, doc))
      else .error "CSV must have columns: task_id, project_id, title"

/-- Embeds importFromCsv (src/index.js lines 696-723) from the raw
  csv_data string. Time is fixed at now for every row; the source calls
  new Date() per row, which only affects the stored timestamps, not which
  rows are registered or counted. -/
def importFromCsv (now : Int) (csv : String) (doc : CacheDoc) :
    Except String (Nat × CacheDoc) :=
  importLines now doc (splitLines csv)

/-- Names handled by the CallToolRequestSchema switch (src/index.js lines
  474-547), the tool registry consulted by both transports. -/
def registeredNames : List String :=
  ["ticktick_get_projects", "ticktick_create_project", "ticktick_create_task",
   "ticktick_update_task", "ticktick_delete_task", "ticktick_complete_task",
   "ticktick_get_task_details", "ticktick_get_cached_tasks",
   "ticktick_register_task_id", "ticktick_import_from_csv",
   "ticktick_get_habits", "ticktick_create_habit", "ticktick_checkin_habit",
   "ticktick_start_focus_session", "ticktick_get_focus_stats",
   "ticktick_get_tags", "ticktick_create_tag", "ticktick_add_tag_to_task",
   "ticktick_archive_project", "ticktick_duplicate_project",
   "ticktick_get_calendar_events", "ticktick_create_calendar_event",
   "ticktick_get_productivity_report", "ticktick_get_today_tasks",
   "ticktick_get_overdue_tasks", "ticktick_share_project",
   "ticktick_add_task_note"]

/-- Error codes of the MCP taxonomy used by the dispatcher: MethodNotFound
  (-32601) thrown by the default branch, InternalError (-32603) thrown by
  the catch block. -/
inductive ErrCode where
  | methodNotFound
  | internalError
deriving DecidableEq, Repr

/-- A thrown JS error as seen by the catch block: an optional MCP code (a
  plain Error from a handler has none, a McpError carries one) and the
  message. -/
structure Thrown where
  code : Option ErrCode
  msg : String
deriving DecidableEq, Repr

/-- Outcome of running a registered handler: its returned text content, or
  the message of the plain Error it threw. Handlers perform I/O, so the
  outcome is a parameter of the dispatcher model. -/
inductive HandlerOutcome where
  | ok (text : String)
  | thrown (msg : String)
deriving DecidableEq, Repr

/-- Result of a tool call as rendered to the transport: a success content
  block, or an McpError with its taxonomy code. -/
inductive CallResult where
  | success (text : String)
  | mcpError (code : ErrCode) (msg : String)
deriving DecidableEq, Repr

/-- Embeds the try block of the CallToolRequestSchema handler (src/index.js
  lines 473-551): a registered name runs its handler, the default branch
  throws McpError with code MethodNotFound and message naming the unknown
  tool. -/
def callToolBody (run : String → HandlerOutcome) (name : String) :
    Except Thrown String :=
  if name ∈ registeredNames then
    match run name with
    | .ok text => .ok text
    | .thrown msg => .error ⟨none, msg⟩
  else
    .error ⟨some .methodNotFound, "Unknown tool: " ++ name⟩

/-- Embeds the whole CallToolRequestSchema handler (src/index.js lines
  470-556): the catch block rethrows every caught error as McpError with
  code InternalError carrying the caught message (src/index.js line 554),
  whatever code the caught error itself carried. The SDK prefixes McpError
  messages with the code text; the embedding keeps the raw message, which
  does not affect the classification. The handler never crashes: every
  path yields a CallResult. -/
def callTool (run : String → HandlerOutcome) (name : String) : CallResult :=
  match callToolBody run name with
  | .ok text => .success text
  | .error e => .mcpError .internalError e.msg

/-! Helper lemmas about the association-list update setKey, shared by the
  cache theorems. -/

/-- Looking up the key just assigned returns the assigned record. -/
theorem lookup_setKey_self (k : String) (v : CacheRecord)
    (l : List (String × CacheRecord)) : (setKey k v l).lookup k = some v := by
  induction l with
  | nil => simp [setKey, List.lookup]
  | cons hd tl ih =>
    obtain ⟨k', v'⟩ := hd
    by_cases h : k' = k
    · subst h; simp [setKey, List.lookup]
    · have hbeq : (k == k') = false := beq_eq_false_iff_ne.mpr (Ne.symm h)
      simp [setKey, h, List.lookup, hbeq, ih]

/-- Looking up any other key is unaffected by the assignment. -/
theorem lookup_setKey_ne (k k' : String) (v : CacheRecord)
    (l : List (String × CacheRecord)) (h : k' ≠ k) :
    (setKey k v l).lookup k' = l.lookup k' := by
  have hbeq : (k' == k) = false := beq_eq_false_iff_ne.mpr h
  induction l with
  | nil => simp [setKey, List.lookup, hbeq]
  | cons hd tl ih =>
    obtain ⟨a, b⟩ := hd
    by_cases ha : a = k
    · simp [setKey, ha, List.lookup, hbeq]
    · simp [setKey, ha, List.lookup, ih]

/-- Assigning a key twice is the same as assigning it once with the final
  value. -/
theorem setKey_setKey_same (k : String) (v v' : CacheRecord)
    (l : List (String × CacheRecord)) :
    setKey k v (setKey k v' l) = setKey k v l := by
  induction l with
  | nil => simp [setKey]
  | cons hd tl ih =>
    obtain ⟨a, b⟩ := hd
    by_cases ha : a = k
    · simp [setKey, ha]
    · simp [setKey, ha, ih]

/-- On a list holding at most one binding of the key (the JS object
  invariant), assignment leaves exactly one binding of it. -/
theorem countP_setKey_self (k : String) (v : CacheRecord)
    (l : List (String × CacheRecord))
    (h : l.countP (fun p => p.1 == k) ≤ 1) :
    (setKey k v l).countP (fun p => p.1 == k) = 1 := by
  induction l with
  | nil => simp [setKey]
  | cons hd tl ih =>
    obtain ⟨a, b⟩ := hd
    by_cases ha : a = k
    · have h1 : setKey k v ((a, b) :: tl) = (k, v) :: tl := by simp [setKey, ha]
      rw [h1, List.countP_cons]
      rw [List.countP_cons] at h
      simp [ha] at h ⊢
      exact h
    · have h1 : setKey k v ((a, b) :: tl) = (a, b) :: setKey k v tl := by
        simp [setKey, ha]
      rw [h1, List.countP_cons]
      rw [List.countP_cons] at h
      simp only [ha] at h ⊢
      have hbeq : ((a, b).1 == k) = false := beq_eq_false_iff_ne.mpr ha
      rw [hbeq] at h ⊢
      simp at h ⊢
      exact ih h

/-- The import loop folded over any line list registers and counts exactly
  the well-formed rows, in order, regardless of what malformed lines sit
  between them. -/
theorem foldl_importStep (now : Int) (rows : List String) :
    ∀ (n : Nat) (doc : CacheDoc),
      rows.foldl (importStep now) (n, doc) =
        (n + (rows.filterMap rowFields).length,
         (rows.filterMap rowFields).foldl
           (fun d r => addTaskToCache now r.1 r.2.1 r.2.2 d) doc) := by
  induction rows with
  | nil => intro n doc; simp
  | cons hd tl ih =>
    intro n doc
    cases hrow : rowFields hd with
    | none => simp [importStep, hrow, ih]
    | some r =>
      obtain ⟨a, b, c⟩ := r
      simp [importStep, hrow, ih, List.filterMap_cons]
      omega

/-! Claim theorems. -/

/-- C5: a record is stale exactly when its cached-at value is missing (the
  falsy gate) or now minus cached-at strictly exceeds the 24-hour TTL; at
  the boundary, a record cached at now - TTL - 1s is stale and a record
  cached at now - TTL + 1s is fresh. -/
theorem isTaskStale_ttl_boundary (now t : Int) :
    isTaskStale now .absent = true ∧
    isTaskStale now .emptyStr = true ∧
    (isTaskStale now (.time t) = true ↔ now - t > CACHE_TTL) ∧
    isTaskStale now (.time (now - CACHE_TTL - 1000)) = true ∧
    isTaskStale now (.time (now - CACHE_TTL + 1000)) = false := by
  refine ⟨rfl, rfl, by simp [isTaskStale], ?_, ?_⟩ <;>
    simp [isTaskStale, CACHE_TTL] <;> omega

/-- C10: a record whose cached-at value is a present (truthy) but
  unparsable string is reported fresh - the NaN comparison in the source
  never makes a record stale - while a missing cached-at is reported
  stale. -/
theorem isTaskStale_unparsable_fresh (now : Int) :
    isTaskStale now .badStr = false ∧ isTaskStale now .absent = true :=
  ⟨rfl, rfl⟩

/-- C6: writing the same task id twice leaves exactly one binding of that
  id, holding the second timestamp, and the double write equals the single
  second write (last write wins). The hypothesis is the JS object
  invariant that a key is bound at most once. -/
theorem addTaskToCache_last_write_wins (t1 t2 : Int) (id pid title : String)
    (doc : CacheDoc) (h : doc.tasks.countP (fun p => p.1 == id) ≤ 1) :
    ((addTaskToCache t2 id pid title (addTaskToCache t1 id pid title doc)).tasks.countP
        (fun p => p.1 == id) = 1) ∧
    ((addTaskToCache t2 id pid title (addTaskToCache t1 id pid title doc)).tasks.lookup id =
        some ⟨pid, title, .time t2⟩) ∧
    (addTaskToCache t2 id pid title (addTaskToCache t1 id pid title doc) =
        addTaskToCache t2 id pid title doc) := by
  simp only [addTaskToCache, setKey_setKey_same]
  exact ⟨countP_setKey_self id _ doc.tasks h, lookup_setKey_self id _ doc.tasks, trivial⟩

/-- Witness for C6 at concrete inputs. -/
theorem addTaskToCache_last_write_wins_witness :
    (emptyDoc.tasks.countP (fun p => p.1 == "t1") ≤ 1) ∧
    ((addTaskToCache 5 "t1" "p1" "T" (addTaskToCache 3 "t1" "p1" "T" emptyDoc)).tasks.lookup "t1" =
      some ⟨"p1", "T", .time 5⟩) :=
  ⟨by decide, (addTaskToCache_last_write_wins 3 5 "t1" "p1" "T" emptyDoc (by decide)).2.1⟩

/-- C9: one put touches only the record keyed by its task id - every other
  task id reads back unchanged and the unknown top-level sibling keys are
  carried to the save verbatim; the save stores exactly the updated
  document. -/
theorem addTaskToCache_frame (t : Int) (id pid title k : String) (fs : FileState)
    (h : k ≠ id) :
    ((addTaskToCache t id pid title (loadCache fs)).tasks.lookup k =
      (loadCache fs).tasks.lookup k) ∧
    ((addTaskToCache t id pid title (loadCache fs)).extra = (loadCache fs).extra) ∧
    (saveCache (addTaskToCache t id pid title (loadCache fs)) =
      .stored (addTaskToCache t id pid title (loadCache fs))) := by
  refine ⟨?_, rfl, rfl⟩
  simp only [addTaskToCache]
  exact lookup_setKey_ne id k _ (loadCache fs).tasks h

/-- Witness for C9 at concrete inputs, with a sibling key present. -/
theorem addTaskToCache_frame_witness :
    ("k2" ≠ "t1") ∧
    ((addTaskToCache 4 "t1" "p1" "T"
        (loadCache (.stored ⟨[("k2", ⟨"p2", "U", .time 1⟩)], [("meta", "x")]⟩))).tasks.lookup "k2" =
      (loadCache (.stored ⟨[("k2", ⟨"p2", "U", .time 1⟩)], [("meta", "x")]⟩)).tasks.lookup "k2") ∧
    ((addTaskToCache 4 "t1" "p1" "T"
        (loadCache (.stored ⟨[("k2", ⟨"p2", "U", .time 1⟩)], [("meta", "x")]⟩))).extra =
      (loadCache (.stored ⟨[("k2", ⟨"p2", "U", .time 1⟩)], [("meta", "x")]⟩)).extra) :=
  ⟨by decide,
    (addTaskToCache_frame 4 "t1" "p1" "T" "k2" _ (by decide)).1,
    (addTaskToCache_frame 4 "t1" "p1" "T" "k2" _ (by decide)).2.1⟩

/-- C8: loading an absent or unparsable cache file yields exactly the empty
  table; loadCache is a total function, so it never fails on any file
  state. -/
theorem loadCache_missing_or_unparsable (fs : FileState)
    (h : fs = .absent ∨ fs = .unparsable) :
    loadCache fs = emptyDoc := by
  rcases h with h | h <;> subst h <;> rfl

/-- Witness for C8 at the absent file state. -/
theorem loadCache_missing_or_unparsable_witness :
    (FileState.absent = FileState.absent ∨ FileState.absent = FileState.unparsable) ∧
    loadCache .absent = emptyDoc :=
  ⟨Or.inl rfl, loadCache_missing_or_unparsable .absent (Or.inl rfl)⟩

/-- C7: for an input with a valid header, the import succeeds and registers
  exactly the well-formed data rows (all three positional fields non-empty
  after trim) with a count equal to their number; malformed rows are
  skipped and the rows after them are still processed, as the filterMap
  folding shows. -/
theorem importFromCsv_imports_wellformed (now : Int) (csv : String)
    (doc : CacheDoc) (header : String) (rows : List String)
    (hsplit : splitLines csv = header :: rows)
    (hvalid : headerValid header = true) :
    importFromCsv now csv doc =
      .ok ((rows.filterMap rowFields).length,
           (rows.filterMap rowFields).foldl
             (fun d r => addTaskToCache now r.1 r.2.1 r.2.2 d) doc) := by
  rw [importFromCsv, hsplit]
  simp only [importLines, hvalid, if_true]
  rw [foldl_importStep]
  simp

/-- Witness for C7: the scenario from the spec - two well-formed rows and a
  malformed row between them; exactly two rows are counted. -/
theorem importFromCsv_imports_wellformed_witness :
    (splitLines "task_id,project_id,title\nt1,p1,Alpha\nt2,p2\nt3,p3,Gamma" =
      "task_id,project_id,title" :: ["t1,p1,Alpha", "t2,p2", "t3,p3,Gamma"]) ∧
    (headerValid "task_id,project_id,title" = true) ∧
    importFromCsv 7 "task_id,project_id,title\nt1,p1,Alpha\nt2,p2\nt3,p3,Gamma" emptyDoc =
      .ok ((["t1,p1,Alpha", "t2,p2", "t3,p3,Gamma"].filterMap rowFields).length,
           (["t1,p1,Alpha", "t2,p2", "t3,p3,Gamma"].filterMap rowFields).foldl
             (fun d r => addTaskToCache 7 r.1 r.2.1 r.2.2 d) emptyDoc) :=
  ⟨by decide, by decide,
    importFromCsv_imports_wellformed 7
      "task_id,project_id,title\nt1,p1,Alpha\nt2,p2\nt3,p3,Gamma" emptyDoc
      "task_id,project_id,title" ["t1,p1,Alpha", "t2,p2", "t3,p3,Gamma"]
      (by decide) (by decide)⟩

/-- C3 counterexample: with the valid header naming the columns in the
  order title, task_id, project_id, the data row is still destructured
  positionally - the record is keyed by the title cell and no record is
  keyed by the actual task id cell, contradicting header-directed
  assignment. -/
theorem importFromCsv_positional_cex :
    importFromCsv 0 "title,task_id,project_id\nMyTitle,t9,p9" emptyDoc =
      .ok (1, ⟨[("MyTitle", ⟨"t9", "p9", .time 0⟩)], []⟩) ∧
    (CacheDoc.mk [("MyTitle", ⟨"t9", "p9", .time 0⟩)] []).tasks.lookup "t9" = none := by
  decide

/-- C3 as amended: the header order is never consulted - any two valid
  headers produce identical import behavior on the same data rows, because
  fields are assigned in the fixed positional order task_id, project_id,
  title. -/
theorem importLines_header_independent (now : Int) (h1 h2 : String)
    (rows : List String) (doc : CacheDoc)
    (hv1 : headerValid h1 = true) (hv2 : headerValid h2 = true) :
    importLines now doc (h1 :: rows) = importLines now doc (h2 :: rows) := by
  simp [importLines, hv1, hv2]

/-- Witness for the amended C3 with two valid headers in different
  orders. -/
theorem importLines_header_independent_witness :
    (headerValid "task_id,project_id,title" = true) ∧
    (headerValid "title,task_id,project_id" = true) ∧
    importLines 0 emptyDoc ("task_id,project_id,title" :: ["a,b,c"]) =
      importLines 0 emptyDoc ("title,task_id,project_id" :: ["a,b,c"]) :=
  ⟨by decide, by decide,
    importLines_header_independent 0 _ _ ["a,b,c"] emptyDoc (by decide) (by decide)⟩

/-- C1: the declared schema default for include_stale is true, yet invoking
  ticktick_get_cached_tasks without include_stale on a cache holding one
  stale record returns the empty list, while passing the declared default
  explicitly returns the record - the dispatcher never fills declared
  defaults, so the omitted optional argument behaves as false, not as its
  declared default. -/
theorem getCachedTasks_missing_include_stale_drops_stale :
    includeStaleDeclaredDefault = true ∧
    getCachedTasks (CACHE_TTL + 1) ⟨none, none⟩
      ⟨[("t1", ⟨"p1", "Buy milk", .time 0⟩)], []⟩ = [] ∧
    getCachedTasks (CACHE_TTL + 1) ⟨none, some includeStaleDeclaredDefault⟩
      ⟨[("t1", ⟨"p1", "Buy milk", .time 0⟩)], []⟩ =
      [⟨"t1", "p1", "Buy milk", .time 0, true⟩] := by decide

/-- C2 counterexample: invoking the unregistered name ticktick_no_such_tool
  yields an McpError classified InternalError, not MethodNotFound - the
  unknown-name classification does not survive to the caller. -/
theorem callTool_unknown_cex :
    callTool (fun _ => .ok "") "ticktick_no_such_tool" =
      .mcpError .internalError "Unknown tool: ticktick_no_such_tool" ∧
    ErrCode.internalError ≠ ErrCode.methodNotFound := by decide

/-- C2 as amended: for every name outside the registry and every handler
  behavior, the try block classifies the failure MethodNotFound with a
  message naming the unknown tool, and the catch block re-wraps it as
  InternalError with the same message; the dispatcher always returns a
  result, never crashing. -/
theorem callTool_unknown_rewrapped (run : String → HandlerOutcome) (name : String)
    (h : name ∉ registeredNames) :
    callToolBody run name = .error ⟨some .methodNotFound, "Unknown tool: " ++ name⟩ ∧
    callTool run name = .mcpError .internalError ("Unknown tool: " ++ name) := by
  constructor
  · simp [callToolBody, h]
  · simp [callTool, callToolBody, h]

/-- Witness for the amended C2 at a concrete unregistered name. -/
theorem callTool_unknown_rewrapped_witness :
    ("not_a_tool" ∉ registeredNames) ∧
    callTool (fun _ => .ok "ok") "not_a_tool" =
      .mcpError .internalError ("Unknown tool: " ++ "not_a_tool") :=
  ⟨by decide, (callTool_unknown_rewrapped (fun _ => .ok "ok") "not_a_tool" (by decide)).2⟩

end TickTickMCP
